import Mathlib

/-!
Shallow embedding of the clinic scheduling application (models.py / app.py):
availability slots, appointments, notifications and the lifecycle operations
of the specification.  Dates are modelled as natural numbers counting days
from a fixed Monday, so a day d has weekday d % 7 with the Python convention
Monday = 0, ..., Sunday = 6.  Database tables are modelled as lists in
primary-key / insertion order; a SQLAlchemy first() call is the first list
element satisfying the filter, and committed mutations are reflected in the
returned state even on paths where the Python code subsequently raises.
-/

structure UserRec where
  id : Nat
  name : String
  role : String
deriving Repr, DecidableEq

structure SlotRec where
  doctor_id : Nat
  date : Nat
  time : String
  is_available : Bool
deriving Repr, DecidableEq

structure ApptRec where
  id : Nat
  patient_id : Nat
  doctor_id : Nat
  nurse_id : Option Nat
  date : Nat
  time : String
  duration : Nat
  status : String
  reason : Option String
  notes : Option String
  checked_in : Bool
deriving Repr, DecidableEq

structure NotifRec where
  user_id : Nat
  appointment_id : Option Nat
  message : String
  is_read : Bool
deriving Repr, DecidableEq

structure SchedRec where
  doctor_id : Nat
  date : Nat
  start_time : String
  end_time : String
  is_available : Bool
deriving Repr, DecidableEq

structure ClinicState where
  users : List UserRec
  slots : List SlotRec
  appts : List ApptRec
  notifs : List NotifRec
  nextApptId : Nat
deriving Repr, DecidableEq

/-- Mutate the first element satisfying `p` (the row returned by a SQLAlchemy
first() call); no element matching means no mutation (the `if slot:` guard). -/
def updateFirst (p : α → Bool) (f : α → α) : List α → List α
  | [] => []
  | x :: xs => if p x then f x :: xs else x :: updateFirst p f xs

/-- The filter_by(doctor_id=..., date=..., time=...) key predicate on slots. -/
def slotKeyMatch (doctor date : Nat) (time : String) (s : SlotRec) : Bool :=
  s.doctor_id == doctor && s.date == date && s.time == time

/-- slot.is_available = value (the row mutation the routes perform). -/
def setSlotFlag (b : Bool) (s : SlotRec) : SlotRec := { s with is_available := b }

/-- Relationship lookup: the user row whose primary key is `i`, if any. -/
def findUser (users : List UserRec) (i : Nat) : Option UserRec :=
  users.find? (fun u => u.id == i)

/-- models.get_available_time_slots: the times of slots of this doctor and
date whose is_available flag is true. -/
def get_available_time_slots (st : ClinicState) (doctor_id date : Nat) : List String :=
  (st.slots.filter (fun s => s.doctor_id == doctor_id && s.date == date && s.is_available)).map
    (fun s => s.time)

/-- Availability Store isOpen: the requested time is among the available
time slots of (doctor, date). -/
def is_open (st : ClinicState) (doctor_id date : Nat) (time : String) : Bool :=
  (get_available_time_slots st doctor_id date).contains time

/-- models.create_appointment_notifications: builds the doctor, patient and
optional nurse notifications.  Building a message dereferences the patient
respectively doctor user row (appointment.patient.name, appointment.doctor.name);
a missing row is a None relationship, and the attribute access raises, which
this embedding models as `none`.  All records take the is_read default false. -/
def create_appointment_notifications (users : List UserRec) (a : ApptRec) :
    Option (List NotifRec) :=
  match findUser users a.patient_id with
  | none => none
  | some p =>
    let doctorNotif : NotifRec :=
      { user_id := a.doctor_id, appointment_id := some a.id,
        message := "New appointment with " ++ p.name ++ " on " ++ toString a.date ++
          " at " ++ a.time,
        is_read := false }
    match findUser users a.doctor_id with
    | none => none
    | some d =>
      let patientNotif : NotifRec :=
        { user_id := a.patient_id, appointment_id := some a.id,
          message := "Appointment confirmed with Dr. " ++ d.name ++ " on " ++
            toString a.date ++ " at " ++ a.time,
          is_read := false }
      let nurseNotifs : List NotifRec :=
        match a.nurse_id with
        | some nid =>
          [{ user_id := nid, appointment_id := some a.id,
             message := "You have been assigned to assist with the appointment of " ++
               p.name ++ " with Dr. " ++ d.name ++ " on " ++ toString a.date ++
               " at " ++ a.time,
             is_read := false }]
        | none => []
      some ([doctorNotif, patientNotif] ++ nurseNotifs)

inductive CreateResult where
  | unavailable
  | ok (a : ApptRec)
  | crashed
deriving Repr, DecidableEq

/-- models.create_appointment: checks only slot openness, inserts the
appointment with status scheduled and commits, closes the first slot row with
the requested key and commits, then creates the notifications.  When the
notification step raises, the already committed appointment insert and slot
flip persist, which the `crashed` branch records. -/
def create_appointment (st : ClinicState) (patient_id doctor_id date : Nat)
    (time : String) (reason : Option String) (nurse_id : Option Nat) :
    CreateResult × ClinicState :=
  if (get_available_time_slots st doctor_id date).contains time then
    let a : ApptRec :=
      { id := st.nextApptId, patient_id := patient_id, doctor_id := doctor_id,
        nurse_id := nurse_id, date := date, time := time, duration := 30,
        status := "scheduled", reason := reason, notes := none, checked_in := false }
    let st1 : ClinicState := { st with appts := st.appts ++ [a], nextApptId := st.nextApptId + 1 }
    let st2 : ClinicState :=
      { st1 with
          slots := updateFirst (slotKeyMatch doctor_id date time) (setSlotFlag false) st1.slots }
    match create_appointment_notifications st2.users a with
    | some ns => (CreateResult.ok a, { st2 with notifs := st2.notifs ++ ns })
    | none => (CreateResult.crashed, st2)
  else
    (CreateResult.unavailable, st)

/-- The cancellation fan-out of models.cancel_appointment (doctor, patient,
nurse if assigned); like the creation fan-out it dereferences the patient and
doctor user rows to build the message texts. -/
def cancel_appointment_notifications (users : List UserRec) (a : ApptRec) :
    Option (List NotifRec) :=
  match findUser users a.patient_id with
  | none => none
  | some p =>
    let doctorNotif : NotifRec :=
      { user_id := a.doctor_id, appointment_id := some a.id,
        message := "Appointment with " ++ p.name ++ " on " ++ toString a.date ++
          " at " ++ a.time ++ " has been cancelled",
        is_read := false }
    match findUser users a.doctor_id with
    | none => none
    | some d =>
      let patientNotif : NotifRec :=
        { user_id := a.patient_id, appointment_id := some a.id,
          message := "Your appointment with Dr. " ++ d.name ++ " on " ++
            toString a.date ++ " at " ++ a.time ++ " has been cancelled",
          is_read := false }
      let nurseNotifs : List NotifRec :=
        match a.nurse_id with
        | some nid =>
          [{ user_id := nid, appointment_id := some a.id,
             message := "The appointment with " ++ p.name ++ " and Dr. " ++ d.name ++
               " on " ++ toString a.date ++ " at " ++ a.time ++ " has been cancelled",
             is_read := false }]
        | none => []
      some ([doctorNotif, patientNotif] ++ nurseNotifs)

inductive ModelCancelResult where
  | returnedTrue
  | returnedFalse
  | crashed
deriving Repr, DecidableEq

/-- models.cancel_appointment: marks the appointment cancelled and commits,
then dispatches the cancellation fan-out.  The slot table is never touched.
Returns False when the id does not exist. -/
def models_cancel_appointment (st : ClinicState) (appointment_id : Nat) :
    ModelCancelResult × ClinicState :=
  match st.appts.find? (fun a => a.id == appointment_id) with
  | none => (ModelCancelResult.returnedFalse, st)
  | some a =>
    let st1 : ClinicState :=
      { st with
          appts := updateFirst (fun b => b.id == appointment_id)
            (fun b => { b with status := "cancelled" }) st.appts }
    match cancel_appointment_notifications st1.users a with
    | some ns => (ModelCancelResult.returnedTrue, { st1 with notifs := st1.notifs ++ ns })
    | none => (ModelCancelResult.crashed, st1)

inductive RouteResult where
  | notFound
  | unauthorized
  | success
deriving Repr, DecidableEq

/-- app.cancel_appointment (the patient route): 404 when the id does not
exist; unauthorized redirect without mutation when the actor is not the owning
patient; otherwise it reopens the first slot row with the appointment key (if
any) and deletes the appointment row.  The status write after
db.session.delete does not survive the commit, so the net effect is deletion;
no notifications are dispatched on this path. -/
def cancel_appointment_route (st : ClinicState) (actor appointment_id : Nat) :
    RouteResult × ClinicState :=
  match st.appts.find? (fun a => a.id == appointment_id) with
  | none => (RouteResult.notFound, st)
  | some a =>
    if a.patient_id == actor then
      let st1 : ClinicState :=
        { st with
            slots := updateFirst (slotKeyMatch a.doctor_id a.date a.time) (setSlotFlag true) st.slots }
      (RouteResult.success, { st1 with appts := st1.appts.filter (fun b => !(b.id == appointment_id)) })
    else
      (RouteResult.unauthorized, st)

/-- app.doctor_appointment_detail POST branch: 404 when the id does not
exist; redirect without mutation when the actor is not the appointment doctor;
otherwise it overwrites notes and status with the submitted form values and
commits.  No slot row is touched and no notification is created. -/
def doctor_appointment_update (st : ClinicState) (actor appointment_id : Nat)
    (notes status : String) : RouteResult × ClinicState :=
  match st.appts.find? (fun a => a.id == appointment_id) with
  | none => (RouteResult.notFound, st)
  | some a =>
    if a.doctor_id == actor then
      (RouteResult.success,
        { st with
            appts := updateFirst (fun b => b.id == appointment_id)
              (fun b => { b with notes := some notes, status := status }) st.appts })
    else
      (RouteResult.unauthorized, st)

/-- app.toggle_slot: overwrite the flag of the first slot row with the key,
or insert a fresh row when none exists. -/
def toggle_slot (st : ClinicState) (doctor_id date : Nat) (time : String)
    (is_available : Bool) : ClinicState :=
  match st.slots.find? (slotKeyMatch doctor_id date time) with
  | some _ =>
    { st with
        slots := updateFirst (slotKeyMatch doctor_id date time) (setSlotFlag is_available) st.slots }
  | none =>
    { st with slots := st.slots ++
        [{ doctor_id := doctor_id, date := date, time := time, is_available := is_available }] }

/-- app.book_appointment POST branch: when a reschedule id is given and it
names an appointment owned by the acting patient, the old slot is reopened and
the old appointment row deleted; in every other case the state is untouched.
Afterwards — unconditionally — create_appointment runs for the acting patient
and the requested slot, with no nurse. -/
def book_appointment_route (st : ClinicState) (actor : Nat) (reschedule_id : Option Nat)
    (doctor_id date : Nat) (time : String) (reason : Option String) :
    CreateResult × ClinicState :=
  let st1 : ClinicState :=
    match reschedule_id with
    | none => st
    | some rid =>
      match st.appts.find? (fun a => a.id == rid) with
      | some old =>
        if old.patient_id == actor then
          let s2 : ClinicState :=
            { st with
                slots := updateFirst (slotKeyMatch old.doctor_id old.date old.time)
                  (setSlotFlag true) st.slots }
          { s2 with appts := s2.appts.filter (fun b => !(b.id == rid)) }
        else st
      | none => st
  create_appointment st1 actor doctor_id date time reason none

/-- The while loop of app.create_default_schedule: walk the days from
`current` to `last` inclusive and keep the weekdays (weekday < 5). -/
def schedDates (current last : Nat) : List Nat :=
  if _h : current ≤ last then
    (if current % 7 < 5 then [current] else []) ++ schedDates (current + 1) last
  else []
termination_by last + 1 - current
decreasing_by omega

/-- app.create_default_schedule: one DoctorSchedule record per weekday in the
inclusive window of 31 days starting today, with the fixed 09:00 to 17:00
working window and is_available true. -/
def create_default_schedule (doctor_id today : Nat) : List SchedRec :=
  (schedDates today (today + 30)).map (fun d =>
    { doctor_id := doctor_id, date := d, start_time := "09:00", end_time := "17:00",
      is_available := true })

/-- Spec-side description of the seeded dates: the weekdays among the 31
calendar days today, today+1, ..., today+30. -/
def weekdayDatesInWindow (today : Nat) : List Nat :=
  (List.range' today 31).filter (fun d => d % 7 < 5)

/-- The composite identity of a slot record. -/
def slotKey (s : SlotRec) : Nat × Nat × String := (s.doctor_id, s.date, s.time)

/-- The (doctor, date, time) key of an appointment. -/
def apptKey (a : ApptRec) : Nat × Nat × String := (a.doctor_id, a.date, a.time)

/-- Data-model invariant: at most one slot record per (doctor, date, time). -/
def slotKeyUnique (st : ClinicState) : Prop := (st.slots.map slotKey).Nodup

/-- No two appointment records share a (doctor, date, time) key. -/
def apptKeysDistinct (st : ClinicState) : Prop := (st.appts.map apptKey).Nodup

/-- Every appointment record (whatever its status) has a closed slot record
with its key. -/
def allApptSlotsClosed (st : ClinicState) : Prop :=
  ∀ a ∈ st.appts, ∃ s ∈ st.slots, slotKey s = apptKey a ∧ s.is_available = false

/-- Inductive strengthening of the coupled-pair invariant. -/
def strongInv (st : ClinicState) : Prop :=
  slotKeyUnique st ∧ apptKeysDistinct st ∧ allApptSlotsClosed st

/-- The invariant as the specification states it: every scheduled appointment
has exactly one slot record with its key, and every slot record with its key
is closed. -/
def scheduledPairedInvariant (st : ClinicState) : Prop :=
  ∀ a ∈ st.appts, a.status = "scheduled" →
    st.slots.countP (fun s => decide (slotKey s = apptKey a)) = 1 ∧
    ∀ s ∈ st.slots, slotKey s = apptKey a → s.is_available = false

/-! ### Concrete states used to evaluate the operations -/

/-- One patient, one doctor, one open slot. -/
def stBase : ClinicState :=
  { users := [{ id := 1, name := "P", role := "patient" },
              { id := 2, name := "D", role := "doctor" }],
    slots := [{ doctor_id := 2, date := 10, time := "09:00", is_available := true }],
    appts := [], notifs := [], nextApptId := 1 }

/-- The appointment produced by booking the stBase slot. -/
def apptBooked : ApptRec :=
  { id := 1, patient_id := 1, doctor_id := 2, nurse_id := none, date := 10, time := "09:00",
    duration := 30, status := "scheduled", reason := none, notes := none, checked_in := false }

/-- stBase after patient 1 booked the slot (notifications omitted). -/
def stBooked : ClinicState :=
  { users := stBase.users,
    slots := [{ doctor_id := 2, date := 10, time := "09:00", is_available := false }],
    appts := [apptBooked], notifs := [], nextApptId := 2 }

/-- The booked appointment after a models-layer cancel. -/
def apptCancelled : ApptRec := { apptBooked with status := "cancelled" }

/-- stBooked with the appointment already cancelled (slot still closed, as the
models-layer cancel leaves it). -/
def stCancelled : ClinicState := { stBooked with appts := [apptCancelled] }

/-- Two patients and a doctor; patient 1 owns a booked appointment and a
second slot is open for rebooking. -/
def stResched : ClinicState :=
  { users := [{ id := 1, name := "P", role := "patient" },
              { id := 3, name := "Q", role := "patient" },
              { id := 2, name := "D", role := "doctor" }],
    slots := [{ doctor_id := 2, date := 10, time := "09:00", is_available := false },
              { doctor_id := 2, date := 11, time := "10:00", is_available := true }],
    appts := [apptBooked], notifs := [], nextApptId := 2 }

/-- An open slot whose doctor row exists but whose booking patient id (7)
matches no user row. -/
def stNoUsers : ClinicState := { stBase with users := [{ id := 2, name := "D", role := "doctor" }] }

/-- An open slot on day 0 where the booking ids resolve to users of the wrong
role: id 1 is a nurse and the slot doctor id 2 is a patient. -/
def stWrongRole : ClinicState :=
  { users := [{ id := 1, name := "N", role := "nurse" },
              { id := 2, name := "X", role := "patient" }],
    slots := [{ doctor_id := 2, date := 0, time := "09:00", is_available := true }],
    appts := [], notifs := [], nextApptId := 1 }

/-! ### Decidability of the invariants (needed to evaluate them on concrete states) -/

instance (st : ClinicState) : Decidable (slotKeyUnique st) :=
  inferInstanceAs (Decidable (st.slots.map slotKey).Nodup)

instance (st : ClinicState) : Decidable (apptKeysDistinct st) :=
  inferInstanceAs (Decidable (st.appts.map apptKey).Nodup)

instance (st : ClinicState) : Decidable (allApptSlotsClosed st) :=
  inferInstanceAs (Decidable (∀ a ∈ st.appts, ∃ s ∈ st.slots,
    slotKey s = apptKey a ∧ s.is_available = false))

instance (st : ClinicState) : Decidable (strongInv st) :=
  inferInstanceAs (Decidable (slotKeyUnique st ∧ apptKeysDistinct st ∧ allApptSlotsClosed st))

instance (st : ClinicState) : Decidable (scheduledPairedInvariant st) :=
  inferInstanceAs (Decidable (∀ a ∈ st.appts, a.status = "scheduled" →
    st.slots.countP (fun s => decide (slotKey s = apptKey a)) = 1 ∧
    ∀ s ∈ st.slots, slotKey s = apptKey a → s.is_available = false))

/-! ### Generic lemmas about updateFirst -/

theorem updateFirst_map_invariant {α β : Type} {g : α → β} {f : α → α}
    (hg : ∀ x, g (f x) = g x) (p : α → Bool) :
    ∀ l : List α, (updateFirst p f l).map g = l.map g
  | [] => rfl
  | x :: xs => by
    by_cases hp : p x
    · simp [updateFirst, hp, hg]
    · simp [updateFirst, hp, hg, updateFirst_map_invariant hg p xs]

theorem updateFirst_sets_or_keeps {α : Type} {p : α → Bool} {f : α → α} :
    ∀ {l : List α} {y : α}, y ∈ updateFirst p f l → y ∈ l ∨ ∃ x ∈ l, p x = true ∧ y = f x := by
  intro l
  induction l with
  | nil => intro y h; simp [updateFirst] at h
  | cons x xs ih =>
    intro y hy
    by_cases hp : p x
    · rw [updateFirst, if_pos hp] at hy
      rcases List.mem_cons.mp hy with h | h
      · exact Or.inr ⟨x, List.mem_cons_self x xs, hp, h⟩
      · exact Or.inl (List.mem_cons_of_mem x h)
    · rw [updateFirst, if_neg hp] at hy
      rcases List.mem_cons.mp hy with h | h
      · exact Or.inl (h ▸ List.mem_cons_self x xs)
      · rcases ih h with h2 | ⟨z, hz, hpz, hyz⟩
        · exact Or.inl (List.mem_cons_of_mem x h2)
        · exact Or.inr ⟨z, List.mem_cons_of_mem x hz, hpz, hyz⟩

theorem mem_updateFirst_of_neg {α : Type} {p : α → Bool} {f : α → α} :
    ∀ {l : List α} {x : α}, x ∈ l → p x = false → x ∈ updateFirst p f l := by
  intro l
  induction l with
  | nil => intro x h _; simp at h
  | cons y ys ih =>
    intro x hx hpx
    by_cases hp : p y
    · rw [updateFirst, if_pos hp]
      rcases List.mem_cons.mp hx with rfl | h
      · exact absurd hp (by simp [hpx])
      · exact List.mem_cons_of_mem _ h
    · rw [updateFirst, if_neg hp]
      rcases List.mem_cons.mp hx with rfl | h
      · exact List.mem_cons_self x (updateFirst p f ys)
      · exact List.mem_cons_of_mem _ (ih h hpx)

theorem updateFirst_eq_self {α : Type} {p : α → Bool} {f : α → α} :
    ∀ {l : List α}, (∀ x ∈ l, p x = false) → updateFirst p f l = l := by
  intro l
  induction l with
  | nil => intro _; rfl
  | cons x xs ih =>
    intro h
    rw [updateFirst, if_neg (by simp [h x (List.mem_cons_self x xs)])]
    rw [ih (fun y hy => h y (List.mem_cons_of_mem x hy))]

theorem find?_updateFirst {α : Type} {p : α → Bool} {f : α → α}
    (hp : ∀ x, p (f x) = p x) :
    ∀ l : List α, (updateFirst p f l).find? p = (l.find? p).map f
  | [] => rfl
  | x :: xs => by
    by_cases hx : p x
    · rw [updateFirst, if_pos hx, List.find?_cons_of_pos _ (by rw [hp]; exact hx),
        List.find?_cons_of_pos _ hx, Option.map_some']
    · rw [updateFirst, if_neg hx, List.find?_cons_of_neg _ hx, List.find?_cons_of_neg _ hx]
      exact find?_updateFirst hp xs

theorem updateFirst_append_of_none {α : Type} {p : α → Bool} {f : α → α} :
    ∀ {l1 : List α} (l2 : List α), (∀ x ∈ l1, p x = false) →
      updateFirst p f (l1 ++ l2) = l1 ++ updateFirst p f l2 := by
  intro l1
  induction l1 with
  | nil => intro l2 _; rfl
  | cons x xs ih =>
    intro l2 h
    rw [List.cons_append, updateFirst, if_neg (by simp [h x (List.mem_cons_self x xs)])]
    rw [ih l2 (fun y hy => h y (List.mem_cons_of_mem x hy)), List.cons_append]

/-! ### Slot-key lemmas -/

theorem slotKeyMatch_iff {d date : Nat} {t : String} {s : SlotRec} :
    slotKeyMatch d date t s = true ↔ slotKey s = (d, date, t) := by
  simp [slotKeyMatch, slotKey, Prod.ext_iff, and_assoc]

theorem slotKey_setSlotFlag (b : Bool) (s : SlotRec) : slotKey (setSlotFlag b s) = slotKey s := rfl

theorem slots_map_key_updateFirst (p : SlotRec → Bool) (b : Bool) (l : List SlotRec) :
    (updateFirst p (setSlotFlag b) l).map slotKey = l.map slotKey :=
  updateFirst_map_invariant (slotKey_setSlotFlag b) p l

theorem exists_closed_of_updateFirst_close (q : SlotRec → Bool) {l : List SlotRec}
    {k : Nat × Nat × String}
    (h : ∃ s ∈ l, slotKey s = k ∧ s.is_available = false) :
    ∃ s ∈ updateFirst q (setSlotFlag false) l, slotKey s = k ∧ s.is_available = false := by
  induction l with
  | nil => simp at h
  | cons x xs ih =>
    rcases h with ⟨s, hs, hk, hav⟩
    by_cases hq : q x
    · rw [updateFirst, if_pos hq]
      rcases List.mem_cons.mp hs with rfl | hs2
      · exact ⟨setSlotFlag false s, List.mem_cons_self _ _, hk, rfl⟩
      · exact ⟨s, List.mem_cons_of_mem _ hs2, hk, hav⟩
    · rw [updateFirst, if_neg hq]
      rcases List.mem_cons.mp hs with rfl | hs2
      · exact ⟨s, List.mem_cons_self _ _, hk, hav⟩
      · rcases ih ⟨s, hs2, hk, hav⟩ with ⟨s2, hs2m, hk2, hav2⟩
        exact ⟨s2, List.mem_cons_of_mem _ hs2m, hk2, hav2⟩

theorem closed_after_close_key {l : List SlotRec} {d date : Nat} {t : String}
    (h : ∃ s ∈ l, slotKey s = (d, date, t)) :
    ∃ s ∈ updateFirst (slotKeyMatch d date t) (setSlotFlag false) l,
      slotKey s = (d, date, t) ∧ s.is_available = false := by
  induction l with
  | nil => simp at h
  | cons x xs ih =>
    by_cases hq : slotKeyMatch d date t x
    · rw [updateFirst, if_pos hq]
      exact ⟨setSlotFlag false x, List.mem_cons_self _ _, slotKeyMatch_iff.mp hq, rfl⟩
    · rw [updateFirst, if_neg hq]
      rcases h with ⟨s, hs, hk⟩
      rcases List.mem_cons.mp hs with rfl | hs2
      · exact absurd (slotKeyMatch_iff.mpr hk) hq
      · rcases ih ⟨s, hs2, hk⟩ with ⟨s2, hs2m, hk2, hav2⟩
        exact ⟨s2, List.mem_cons_of_mem _ hs2m, hk2, hav2⟩

theorem opened_after_open_key {l : List SlotRec} {d date : Nat} {t : String}
    (h : ∃ s ∈ l, slotKey s = (d, date, t)) :
    ∃ s ∈ updateFirst (slotKeyMatch d date t) (setSlotFlag true) l,
      slotKey s = (d, date, t) ∧ s.is_available = true := by
  induction l with
  | nil => simp at h
  | cons x xs ih =>
    by_cases hq : slotKeyMatch d date t x
    · rw [updateFirst, if_pos hq]
      exact ⟨setSlotFlag true x, List.mem_cons_self _ _, slotKeyMatch_iff.mp hq, rfl⟩
    · rw [updateFirst, if_neg hq]
      rcases h with ⟨s, hs, hk⟩
      rcases List.mem_cons.mp hs with rfl | hs2
      · exact absurd (slotKeyMatch_iff.mpr hk) hq
      · rcases ih ⟨s, hs2, hk⟩ with ⟨s2, hs2m, hk2, hav2⟩
        exact ⟨s2, List.mem_cons_of_mem _ hs2m, hk2, hav2⟩

theorem all_key_closed_after_close {l : List SlotRec} {d date : Nat} {t : String}
    (hnd : (l.map slotKey).Nodup) :
    ∀ s ∈ updateFirst (slotKeyMatch d date t) (setSlotFlag false) l,
      slotKey s = (d, date, t) → s.is_available = false := by
  induction l with
  | nil => simp [updateFirst]
  | cons x xs ih =>
    rw [List.map_cons, List.nodup_cons] at hnd
    by_cases hp : slotKeyMatch d date t x
    · rw [updateFirst, if_pos hp]
      intro s hs hk
      rcases List.mem_cons.mp hs with rfl | hs2
      · rfl
      · exfalso
        have hx : slotKey x = (d, date, t) := slotKeyMatch_iff.mp hp
        exact hnd.1 (hx ▸ hk ▸ List.mem_map_of_mem slotKey hs2)
    · rw [updateFirst, if_neg hp]
      intro s hs hk
      rcases List.mem_cons.mp hs with rfl | hs2
      · exact absurd (slotKeyMatch_iff.mpr hk) hp
      · exact ih hnd.2 s hs2 hk

theorem mem_nonkey_updateFirst {l : List SlotRec} {d date : Nat} {t : String} {b : Bool} :
    ∀ s ∈ updateFirst (slotKeyMatch d date t) (setSlotFlag b) l,
      slotKey s ≠ (d, date, t) → s ∈ l := by
  intro s hs hk
  rcases updateFirst_sets_or_keeps hs with h | ⟨x, _, hpx, rfl⟩
  · exact h
  · exact absurd (slotKeyMatch_iff.mp hpx) hk

theorem inj_on_keys {α β : Type} {g : α → β} {l : List α} (h : (l.map g).Nodup)
    {x y : α} (hx : x ∈ l) (hy : y ∈ l) (hk : g x = g y) : x = y :=
  List.inj_on_of_nodup_map h hx hy hk

theorem countP_eq_one_of_nodup_map {α β : Type} [DecidableEq β] {g : α → β} :
    ∀ {l : List α}, (l.map g).Nodup → ∀ {x : α}, x ∈ l →
      l.countP (fun y => decide (g y = g x)) = 1 := by
  intro l
  induction l with
  | nil => intro _ x hx; simp at hx
  | cons a as ih =>
    intro hnd x hx
    rw [List.map_cons, List.nodup_cons] at hnd
    rcases List.mem_cons.mp hx with rfl | hx2
    · rw [List.countP_cons_of_pos _ _ (by simp)]
      have hz : as.countP (fun y => decide (g y = g x)) = 0 := by
        rw [List.countP_eq_zero]
        intro y hy hbeq
        have hgy : g y = g x := by simpa using hbeq
        exact hnd.1 (hgy ▸ List.mem_map_of_mem g hy)
      rw [hz]
    · have hne : g a ≠ g x := fun heq => hnd.1 (heq ▸ List.mem_map_of_mem g hx2)
      rw [List.countP_cons_of_neg _ _ (by simp [hne])]
      exact ih hnd.2 hx2

theorem countP_key_eq_one {l : List SlotRec} (h : (l.map slotKey).Nodup)
    {s : SlotRec} (hs : s ∈ l) :
    l.countP (fun s2 => decide (slotKey s2 = slotKey s)) = 1 :=
  countP_eq_one_of_nodup_map h hs

/-! ### The openness predicate as an existential -/

theorem is_open_iff (st : ClinicState) (d date : Nat) (t : String) :
    is_open st d date t = true ↔
      ∃ s ∈ st.slots, slotKey s = (d, date, t) ∧ s.is_available = true := by
  unfold is_open get_available_time_slots
  rw [List.contains_iff_exists_mem_beq]
  constructor
  · rintro ⟨t2, ht2, hbeq⟩
    rcases List.mem_map.mp ht2 with ⟨s, hsf, rfl⟩
    rcases List.mem_filter.mp hsf with ⟨hsl, hcond⟩
    have h3 := hcond
    simp only [Bool.and_eq_true, beq_iff_eq] at h3
    refine ⟨s, hsl, ?_, h3.2⟩
    have ht : t = s.time := by simpa using hbeq
    simp [slotKey, Prod.ext_iff, h3.1.1, h3.1.2, ht]
  · rintro ⟨s, hsl, hk, hav⟩
    refine ⟨s.time, List.mem_map_of_mem _ (List.mem_filter.mpr ⟨hsl, ?_⟩), ?_⟩
    · simp only [slotKey, Prod.ext_iff] at hk
      simp [hk.1, hk.2.1, hav]
    · simp only [slotKey, Prod.ext_iff] at hk
      simp [hk.2.2]

/-! ### The schedule seeder -/

theorem schedDates_stop {c l : Nat} (h : ¬ c ≤ l) : schedDates c l = [] := by
  rw [schedDates.eq_def, dif_neg h]

theorem schedDates_step {c l : Nat} (h : c ≤ l) :
    schedDates c l = (if c % 7 < 5 then [c] else []) ++ schedDates (c + 1) l := by
  rw [schedDates.eq_def, dif_pos h]

theorem schedDates_eq_range' :
    ∀ (n c l : Nat), l + 1 - c = n →
      schedDates c l = (List.range' c n).filter (fun d => d % 7 < 5)
  | 0, c, l, h => by
    rw [schedDates_stop (by omega)]
    rfl
  | n + 1, c, l, h => by
    rw [schedDates_step (by omega : c ≤ l), List.range'_succ, List.filter_cons,
      schedDates_eq_range' n (c + 1) l (by omega)]
    by_cases h5 : c % 7 < 5 <;> simp [h5]

theorem schedDates_eq (c l : Nat) :
    schedDates c l = (List.range' c (l + 1 - c)).filter (fun d => d % 7 < 5) :=
  schedDates_eq_range' _ c l rfl

theorem create_default_schedule_dates (D t : Nat) :
    (create_default_schedule D t).map (fun r => r.date) = weekdayDatesInWindow t := by
  unfold create_default_schedule weekdayDatesInWindow
  rw [schedDates_eq, List.map_map, show t + 30 + 1 - t = 31 from by omega]
  have hcomp : ((fun r : SchedRec => r.date) ∘ fun d =>
      ({ doctor_id := D, date := d, start_time := "09:00", end_time := "17:00",
         is_available := true } : SchedRec)) = id := rfl
  rw [hcomp, List.map_id]

theorem weekday_head_saturday (t : Nat) (h : t % 7 = 5) :
    (weekdayDatesInWindow t).head? = some (t + 2) := by
  obtain ⟨k, rfl⟩ : ∃ k, t = 7 * k + 5 := ⟨t / 7, by omega⟩
  unfold weekdayDatesInWindow
  rw [show (31 : Nat) = 28 + 1 + 1 + 1 from by norm_num,
    List.range'_succ, List.range'_succ, List.range'_succ,
    List.filter_cons, List.filter_cons, List.filter_cons]
  have h0 : ¬ (7 * k + 5) % 7 < 5 := by omega
  have h1 : ¬ (7 * k + 5 + 1) % 7 < 5 := by omega
  have h2 : (7 * k + 5 + 1 + 1) % 7 < 5 := by omega
  simp [h0, h1, h2]

/-- C8: seeding a new doctor creates one DoctorSchedule record with window
09:00 to 17:00 and is_available = true for exactly the Monday-to-Friday days
of the inclusive 31-day window starting today; when today is a Saturday the
first generated date is the following Monday (today + 2), and the record
count is the number of weekdays in the window. -/
theorem C8_default_schedule (D t : Nat) :
    ((create_default_schedule D t).map (fun r => r.date) = weekdayDatesInWindow t) ∧
    (∀ r ∈ create_default_schedule D t,
      r.doctor_id = D ∧ r.start_time = "09:00" ∧ r.end_time = "17:00" ∧
      r.is_available = true ∧ t ≤ r.date ∧ r.date ≤ t + 30 ∧ r.date % 7 < 5) ∧
    ((create_default_schedule D t).length = (weekdayDatesInWindow t).length) ∧
    (t % 7 = 5 →
      (create_default_schedule D t).head?.map (fun r => r.date) = some (t + 2) ∧
      (t + 2) % 7 = 0) := by
  refine ⟨create_default_schedule_dates D t, ?_, ?_, ?_⟩
  · intro r hr
    unfold create_default_schedule at hr
    rcases List.mem_map.mp hr with ⟨d, hd, rfl⟩
    rw [schedDates_eq] at hd
    rcases List.mem_filter.mp hd with ⟨hdR, hd5⟩
    rcases List.mem_range'.mp hdR with ⟨i, hi, rfl⟩
    have hd5' : (t + 1 * i) % 7 < 5 := by simpa using hd5
    exact ⟨rfl, rfl, rfl, rfl, (by omega : t ≤ t + 1 * i),
      (by omega : t + 1 * i ≤ t + 30), hd5'⟩
  · have := congrArg List.length (create_default_schedule_dates D t)
    simpa using this
  · intro h
    have h1 := congrArg List.head? (create_default_schedule_dates D t)
    rw [List.head?_map] at h1
    rw [h1, weekday_head_saturday t h]
    exact ⟨rfl, by omega⟩

/-- C8 witness: a concrete Saturday start (day 5), with all hypotheses
discharged. -/
theorem C8_default_schedule_witness :
    (create_default_schedule 1 5).head?.map (fun r => r.date) = some (5 + 2) ∧
    (5 + 2) % 7 = 0 :=
  (C8_default_schedule 1 5).2.2.2 (by decide)

/-! ### Further helper lemmas -/

theorem length_updateFirst {α : Type} (p : α → Bool) (f : α → α) :
    ∀ l : List α, (updateFirst p f l).length = l.length
  | [] => rfl
  | x :: xs => by
    by_cases hp : p x <;> simp [updateFirst, hp, length_updateFirst p f xs]

theorem updateFirst_updateFirst {α : Type} {p : α → Bool} {f : α → α}
    (hp : ∀ x, p (f x) = p x) (hf : ∀ x, f (f x) = f x) :
    ∀ l : List α, updateFirst p f (updateFirst p f l) = updateFirst p f l
  | [] => rfl
  | x :: xs => by
    by_cases hx : p x
    · rw [updateFirst, if_pos hx, updateFirst, if_pos (by rw [hp]; exact hx), hf]
    · rw [updateFirst, if_neg hx, updateFirst, if_neg hx,
        updateFirst_updateFirst hp hf xs]

theorem create_appointment_preserves_appts (st : ClinicState) (pid did date : Nat)
    (time : String) (reason : Option String) (nurse : Option Nat) {x : ApptRec}
    (hx : x ∈ st.appts) :
    x ∈ (create_appointment st pid did date time reason nurse).2.appts := by
  unfold create_appointment
  by_cases hc : (get_available_time_slots st did date).contains time = true
  · rw [if_pos hc]
    dsimp only
    split
    · exact List.mem_append_left _ hx
    · exact List.mem_append_left _ hx
  · rw [if_neg hc]
    exact hx

theorem create_appointment_state_of_open (st : ClinicState) (pid did date : Nat)
    (time : String) (reason : Option String) (nurse : Option Nat)
    (hc : (get_available_time_slots st did date).contains time = true) :
    (create_appointment st pid did date time reason nurse).2.slots =
      updateFirst (slotKeyMatch did date time) (setSlotFlag false) st.slots ∧
    (create_appointment st pid did date time reason nurse).2.appts =
      st.appts ++ [{ id := st.nextApptId, patient_id := pid, doctor_id := did,
                     nurse_id := nurse, date := date, time := time, duration := 30,
                     status := "scheduled", reason := reason, notes := none,
                     checked_in := false }] ∧
    (create_appointment st pid did date time reason nurse).2.users = st.users := by
  unfold create_appointment
  rw [if_pos hc]
  dsimp only
  split <;> exact ⟨rfl, rfl, rfl⟩

theorem create_appointment_of_closed (st : ClinicState) (pid did date : Nat)
    (time : String) (reason : Option String) (nurse : Option Nat)
    (hc : ¬ (get_available_time_slots st did date).contains time = true) :
    create_appointment st pid did date time reason nurse = (CreateResult.unavailable, st) := by
  unfold create_appointment
  rw [if_neg hc]

theorem strongInv_create (st : ClinicState) (pid did date : Nat) (time : String)
    (reason : Option String) (nurse : Option Nat) (h : strongInv st) :
    strongInv (create_appointment st pid did date time reason nurse).2 := by
  obtain ⟨hKU, hAK, hAC⟩ := h
  by_cases hc : (get_available_time_slots st did date).contains time = true
  · have hopen : ∃ s ∈ st.slots, slotKey s = (did, date, time) ∧ s.is_available = true :=
      (is_open_iff st did date time).mp hc
    have hknew : ∀ b ∈ st.appts, apptKey b ≠ (did, date, time) := by
      intro b hb hkb
      rcases hAC b hb with ⟨sb, hsb, hsk, hsav⟩
      rcases hopen with ⟨so, hso, hok, hoav⟩
      have hsb_so : sb = so := inj_on_keys hKU hsb hso (by rw [hsk, hkb, hok])
      rw [hsb_so, hoav] at hsav
      exact Bool.noConfusion hsav
    obtain ⟨hS, hA, _⟩ := create_appointment_state_of_open st pid did date time reason nurse hc
    refine ⟨?_, ?_, ?_⟩
    · unfold slotKeyUnique
      rw [hS, slots_map_key_updateFirst]
      exact hKU
    · unfold apptKeysDistinct
      rw [hA, List.map_append]
      refine List.Nodup.append hAK (List.nodup_singleton _) ?_
      intro k hk1 hk2
      rcases List.mem_map.mp hk1 with ⟨b, hb, rfl⟩
      have hk : apptKey b = (did, date, time) := by
        have := List.mem_singleton.mp hk2
        simpa [apptKey] using this
      exact hknew b hb hk
    · intro b hb
      rw [hA] at hb
      rw [hS]
      rcases List.mem_append.mp hb with hb2 | hb2
      · exact exists_closed_of_updateFirst_close _ (hAC b hb2)
      · have hb3 : apptKey b = (did, date, time) := by
          rw [List.mem_singleton.mp hb2]
          rfl
        rw [hb3]
        exact closed_after_close_key (by
          rcases hopen with ⟨so, hso, hok, _⟩
          exact ⟨so, hso, hok⟩)
  · rw [create_appointment_of_closed st pid did date time reason nurse hc]
    exact ⟨hKU, hAK, hAC⟩

theorem models_cancel_state (st : ClinicState) {i : Nat} {a : ApptRec}
    (hfind : st.appts.find? (fun b => b.id == i) = some a) :
    (models_cancel_appointment st i).2.slots = st.slots ∧
    (models_cancel_appointment st i).2.appts =
      updateFirst (fun b => b.id == i) (fun b => { b with status := "cancelled" }) st.appts := by
  rw [models_cancel_appointment, hfind]
  dsimp only
  split <;> exact ⟨rfl, rfl⟩

theorem strongInv_models_cancel (st : ClinicState) (i : Nat) (h : strongInv st) :
    strongInv (models_cancel_appointment st i).2 := by
  obtain ⟨hKU, hAK, hAC⟩ := h
  cases hfind : st.appts.find? (fun b => b.id == i) with
  | none =>
    rw [models_cancel_appointment, hfind]
    exact ⟨hKU, hAK, hAC⟩
  | some a =>
    obtain ⟨hS, hA⟩ := models_cancel_state st hfind
    have hkey : ∀ x : ApptRec, apptKey ({ x with status := "cancelled" } : ApptRec) = apptKey x :=
      fun x => rfl
    refine ⟨?_, ?_, ?_⟩
    · unfold slotKeyUnique
      rw [hS]
      exact hKU
    · unfold apptKeysDistinct
      rw [hA, updateFirst_map_invariant hkey]
      exact hAK
    · intro b hb
      rw [hA] at hb
      rw [hS]
      rcases updateFirst_sets_or_keeps hb with hb2 | ⟨y, hy, _, rfl⟩
      · exact hAC b hb2
      · rw [hkey y]
        exact hAC y hy

theorem doctor_update_state (st : ClinicState) (actor : Nat) {i : Nat} {a : ApptRec}
    (notes status : String)
    (hfind : st.appts.find? (fun b => b.id == i) = some a)
    (hb : (a.doctor_id == actor) = true) :
    (doctor_appointment_update st actor i notes status).2.slots = st.slots ∧
    (doctor_appointment_update st actor i notes status).2.appts =
      updateFirst (fun b => b.id == i)
        (fun b => { b with notes := some notes, status := status }) st.appts := by
  rw [doctor_appointment_update, hfind]
  dsimp only
  rw [if_pos hb]
  exact ⟨rfl, rfl⟩

theorem strongInv_doctor_update (st : ClinicState) (actor i : Nat) (notes status : String)
    (h : strongInv st) :
    strongInv (doctor_appointment_update st actor i notes status).2 := by
  obtain ⟨hKU, hAK, hAC⟩ := h
  cases hfind : st.appts.find? (fun b => b.id == i) with
  | none =>
    rw [doctor_appointment_update, hfind]
    exact ⟨hKU, hAK, hAC⟩
  | some a =>
    by_cases hb : (a.doctor_id == actor) = true
    · obtain ⟨hS, hA⟩ := doctor_update_state st actor notes status hfind hb
      have hkey : ∀ x : ApptRec,
          apptKey ({ x with notes := some notes, status := status } : ApptRec) = apptKey x :=
        fun x => rfl
      refine ⟨?_, ?_, ?_⟩
      · unfold slotKeyUnique
        rw [hS]
        exact hKU
      · unfold apptKeysDistinct
        rw [hA, updateFirst_map_invariant hkey]
        exact hAK
      · intro b hb2
        rw [hA] at hb2
        rw [hS]
        rcases updateFirst_sets_or_keeps hb2 with hb3 | ⟨y, hy, _, rfl⟩
        · exact hAC b hb3
        · rw [hkey y]
          exact hAC y hy
    · rw [doctor_appointment_update, hfind]
      dsimp only
      rw [if_neg hb]
      exact ⟨hKU, hAK, hAC⟩

theorem strongInv_free_delete (st : ClinicState) {i : Nat} {a : ApptRec}
    (hfind : st.appts.find? (fun b => b.id == i) = some a)
    (h : strongInv st) :
    strongInv { st with
        slots := updateFirst (slotKeyMatch a.doctor_id a.date a.time) (setSlotFlag true) st.slots,
        appts := st.appts.filter (fun b => !(b.id == i)) } := by
  obtain ⟨hKU, hAK, hAC⟩ := h
  have ha_mem : a ∈ st.appts := List.mem_of_find?_eq_some hfind
  have ha_id := List.find?_some hfind
  have h1 : (List.map slotKey (updateFirst (slotKeyMatch a.doctor_id a.date a.time)
      (setSlotFlag true) st.slots)).Nodup := by
    rw [slots_map_key_updateFirst]
    exact hKU
  have h2 : (List.map apptKey (st.appts.filter (fun b => !(b.id == i)))).Nodup :=
    List.Pairwise.sublist (List.Sublist.map _ (List.filter_sublist _)) hAK
  have h3 : ∀ b ∈ st.appts.filter (fun b => !(b.id == i)),
      ∃ s ∈ updateFirst (slotKeyMatch a.doctor_id a.date a.time) (setSlotFlag true) st.slots,
        slotKey s = apptKey b ∧ s.is_available = false := by
    intro b hb
    have hb2 := List.mem_filter.mp hb
    have hbid : ¬ (b.id == i) = true := by
      simpa using hb2.2
    rcases hAC b hb2.1 with ⟨s, hs, hsk, hsav⟩
    have hbka : apptKey b ≠ apptKey a := by
      intro hk
      have hba : b = a := inj_on_keys hAK hb2.1 ha_mem hk
      rw [hba] at hbid
      exact hbid ha_id
    have hsna : slotKeyMatch a.doctor_id a.date a.time s = false := by
      refine Bool.eq_false_iff.mpr (fun hT => ?_)
      exact hbka (by rw [← hsk, slotKeyMatch_iff.mp hT]; rfl)
    exact ⟨s, mem_updateFirst_of_neg hs hsna, hsk, hsav⟩
  exact ⟨h1, h2, h3⟩

theorem strongInv_cancel_route (st : ClinicState) (actor i : Nat) (h : strongInv st) :
    strongInv (cancel_appointment_route st actor i).2 := by
  cases hfind : st.appts.find? (fun b => b.id == i) with
  | none =>
    rw [cancel_appointment_route, hfind]
    exact h
  | some a =>
    rw [cancel_appointment_route, hfind]
    dsimp only
    by_cases hb : (a.patient_id == actor) = true
    · rw [if_pos hb]
      exact strongInv_free_delete st hfind h
    · rw [if_neg hb]
      exact h

theorem strongInv_book_route (st : ClinicState) (actor : Nat) (reschedule_id : Option Nat)
    (did date : Nat) (time : String) (reason : Option String) (h : strongInv st) :
    strongInv (book_appointment_route st actor reschedule_id did date time reason).2 := by
  cases reschedule_id with
  | none =>
    rw [book_appointment_route]
    exact strongInv_create st actor did date time reason none h
  | some rid =>
    rw [book_appointment_route]
    dsimp only
    cases hfind : st.appts.find? (fun b => b.id == rid) with
    | none =>
      exact strongInv_create st actor did date time reason none h
    | some old =>
      dsimp only
      by_cases hb : (old.patient_id == actor) = true
      · rw [if_pos hb]
        exact strongInv_create _ actor did date time reason none
          (strongInv_free_delete st hfind h)
      · rw [if_neg hb]
        exact strongInv_create st actor did date time reason none h

theorem strongInv_implies_paired (st : ClinicState) (h : strongInv st) :
    scheduledPairedInvariant st := by
  obtain ⟨hKU, _, hAC⟩ := h
  intro a ha _
  rcases hAC a ha with ⟨s, hs, hsk, hsav⟩
  constructor
  · have hone := countP_key_eq_one hKU hs
    simp only [hsk] at hone
    exact hone
  · intro s2 hs2 hk2
    have hs2s : s2 = s := inj_on_keys hKU hs2 hs (by rw [hk2, hsk])
    rw [hs2s]
    exact hsav

/-! ### Claim C1 -/

/-- C1: for every booking request, if a slot with key (doctor, date, time)
exists and is open (and, per the data model, slot keys are unique and the
patient and doctor ids resolve to users), create_appointment returns a new
appointment with status scheduled, appends exactly that one appointment, and
the slot with that key becomes closed while all other slots are unchanged; if
no such open slot exists the call fails with the slot-unavailable result and
the state is completely unchanged. -/
theorem C1_booking_slot_semantics (st : ClinicState) (pid did date : Nat)
    (time : String) (reason : Option String) (nurse : Option Nat)
    (hKU : slotKeyUnique st)
    (hp : (findUser st.users pid).isSome) (hd : (findUser st.users did).isSome) :
    ((∃ s ∈ st.slots, slotKey s = (did, date, time) ∧ s.is_available = true) →
      ∃ a, (create_appointment st pid did date time reason nurse).1 = CreateResult.ok a ∧
        a.status = "scheduled" ∧ a.patient_id = pid ∧ a.doctor_id = did ∧
        a.date = date ∧ a.time = time ∧
        (create_appointment st pid did date time reason nurse).2.appts = st.appts ++ [a] ∧
        (∃ s ∈ (create_appointment st pid did date time reason nurse).2.slots,
            slotKey s = (did, date, time) ∧ s.is_available = false) ∧
        (∀ s ∈ (create_appointment st pid did date time reason nurse).2.slots,
            slotKey s = (did, date, time) → s.is_available = false) ∧
        (∀ s ∈ (create_appointment st pid did date time reason nurse).2.slots,
            slotKey s ≠ (did, date, time) → s ∈ st.slots)) ∧
    ((¬ ∃ s ∈ st.slots, slotKey s = (did, date, time) ∧ s.is_available = true) →
      create_appointment st pid did date time reason nurse = (CreateResult.unavailable, st)) := by
  constructor
  · intro hopen
    have hopen2 : is_open st did date time = true := (is_open_iff st did date time).mpr hopen
    rcases Option.isSome_iff_exists.mp hp with ⟨p, hpE⟩
    rcases Option.isSome_iff_exists.mp hd with ⟨d, hdE⟩
    simp only [is_open] at hopen2
    unfold create_appointment
    rw [if_pos hopen2]
    unfold create_appointment_notifications
    simp only [hpE, hdE]
    have hkey : ∃ s ∈ st.slots, slotKey s = (did, date, time) := by
      rcases hopen with ⟨s, hs, hk, _⟩; exact ⟨s, hs, hk⟩
    have hclosed := closed_after_close_key hkey
    have hall := @all_key_closed_after_close st.slots did date time hKU
    have hnon := @mem_nonkey_updateFirst st.slots did date time false
    cases nurse <;>
      exact ⟨_, rfl, rfl, rfl, rfl, rfl, rfl, rfl, hclosed, hall, hnon⟩
  · intro hcl
    unfold create_appointment
    rw [if_neg (fun hc : (get_available_time_slots st did date).contains time = true =>
      hcl ((is_open_iff st did date time).mp hc))]

/-- C1 witness: both halves evaluated on a concrete state — booking the open
09:00 slot succeeds with the stated effects, and booking the absent 10:00
slot fails with no mutation. -/
theorem C1_booking_slot_semantics_witness :
    (∃ a, (create_appointment stBase 1 2 10 "09:00" none none).1 = CreateResult.ok a ∧
      a.status = "scheduled" ∧ a.patient_id = 1 ∧ a.doctor_id = 2 ∧
      a.date = 10 ∧ a.time = "09:00" ∧
      (create_appointment stBase 1 2 10 "09:00" none none).2.appts = stBase.appts ++ [a] ∧
      (∃ s ∈ (create_appointment stBase 1 2 10 "09:00" none none).2.slots,
          slotKey s = (2, 10, "09:00") ∧ s.is_available = false) ∧
      (∀ s ∈ (create_appointment stBase 1 2 10 "09:00" none none).2.slots,
          slotKey s = (2, 10, "09:00") → s.is_available = false) ∧
      (∀ s ∈ (create_appointment stBase 1 2 10 "09:00" none none).2.slots,
          slotKey s ≠ (2, 10, "09:00") → s ∈ stBase.slots)) ∧
    create_appointment stBase 1 2 10 "10:00" none none = (CreateResult.unavailable, stBase) := by
  have h1 := C1_booking_slot_semantics stBase 1 2 10 "09:00" none none
    (by decide) (by decide) (by decide)
  have h2 := C1_booking_slot_semantics stBase 1 2 10 "10:00" none none
    (by decide) (by decide) (by decide)
  exact ⟨h1.1 (by decide), h2.2 (by decide)⟩

/-! ### Claim C7 -/

/-- C7: the slot toggle is an idempotent upsert — it preserves key uniqueness,
updates in place when a record with the key exists (no length change) and
inserts exactly one record when none does, and repeating the call changes
nothing; after setting available the slot is open and after closing it the
slot is closed; openness is equivalent to the existence of a record with the
key whose is_available flag is true (absence of a record is not open). -/
theorem C7_toggle_upsert (st : ClinicState) (d date : Nat) (t : String) (b : Bool)
    (hKU : slotKeyUnique st) :
    slotKeyUnique (toggle_slot st d date t b) ∧
    ((∃ s ∈ st.slots, slotKey s = (d, date, t)) →
      (toggle_slot st d date t b).slots.length = st.slots.length) ∧
    ((¬ ∃ s ∈ st.slots, slotKey s = (d, date, t)) →
      (toggle_slot st d date t b).slots.length = st.slots.length + 1) ∧
    toggle_slot (toggle_slot st d date t b) d date t b = toggle_slot st d date t b ∧
    is_open (toggle_slot st d date t true) d date t = true ∧
    is_open (toggle_slot st d date t false) d date t = false ∧
    (is_open st d date t = true ↔ ∃ s ∈ st.slots, slotKey s = (d, date, t) ∧ s.is_available = true) := by
  have hopen_tog : ∀ b2 : Bool, is_open (toggle_slot st d date t b2) d date t = b2 := by
    intro b2
    cases hf : st.slots.find? (slotKeyMatch d date t) with
    | some s =>
      have hs : s ∈ st.slots := List.mem_of_find?_eq_some hf
      have hps : slotKeyMatch d date t s = true := List.find?_some hf
      cases b2 with
      | true =>
        rw [toggle_slot, hf]
        exact (is_open_iff _ _ _ _).mpr (by
          rcases opened_after_open_key ⟨s, hs, slotKeyMatch_iff.mp hps⟩ with ⟨s2, h1, h2, h3⟩
          exact ⟨s2, h1, h2, h3⟩)
      | false =>
        rw [toggle_slot, hf]
        refine Bool.eq_false_iff.mpr (fun hT => ?_)
        rcases (is_open_iff _ _ _ _).mp hT with ⟨s2, h1, h2, h3⟩
        have := @all_key_closed_after_close st.slots d date t hKU s2 h1 h2
        rw [this] at h3
        exact Bool.false_ne_true h3
    | none =>
      have hnone : ∀ x ∈ st.slots, ¬ slotKeyMatch d date t x = true :=
        fun x hx => List.find?_eq_none.mp hf x hx
      cases b2 with
      | true =>
        rw [toggle_slot, hf]
        exact (is_open_iff _ _ _ _).mpr
          ⟨{ doctor_id := d, date := date, time := t, is_available := true },
            List.mem_append_right _ (List.mem_singleton.mpr rfl), rfl, rfl⟩
      | false =>
        rw [toggle_slot, hf]
        refine Bool.eq_false_iff.mpr (fun hT => ?_)
        rcases (is_open_iff _ _ _ _).mp hT with ⟨s2, h1, h2, h3⟩
        rcases List.mem_append.mp h1 with h4 | h4
        · exact hnone s2 h4 (slotKeyMatch_iff.mpr h2)
        · rw [List.mem_singleton.mp h4] at h3
          exact Bool.false_ne_true h3
  refine ⟨?_, ?_, ?_, ?_, hopen_tog true, hopen_tog false, is_open_iff st d date t⟩
  · cases hf : st.slots.find? (slotKeyMatch d date t) with
    | some s =>
      rw [toggle_slot, hf]
      unfold slotKeyUnique
      rw [slots_map_key_updateFirst]
      exact hKU
    | none =>
      rw [toggle_slot, hf]
      unfold slotKeyUnique
      rw [List.map_append]
      refine List.Nodup.append hKU (List.nodup_singleton _) ?_
      intro k hk1 hk2
      rcases List.mem_map.mp hk1 with ⟨s, hs, rfl⟩
      have hsk : slotKey s = (d, date, t) := by
        have := List.mem_singleton.mp hk2
        simpa [slotKey] using this
      exact List.find?_eq_none.mp hf s hs (slotKeyMatch_iff.mpr hsk)
  · intro hex
    rcases hex with ⟨s, hs, hk⟩
    have hfs : (st.slots.find? (slotKeyMatch d date t)).isSome := by
      rw [List.find?_isSome]
      exact ⟨s, hs, slotKeyMatch_iff.mpr hk⟩
    rcases Option.isSome_iff_exists.mp hfs with ⟨y, hy⟩
    rw [toggle_slot, hy]
    exact length_updateFirst _ _ _
  · intro hnex
    have hfn : st.slots.find? (slotKeyMatch d date t) = none := by
      rw [List.find?_eq_none]
      intro x hx hpx
      exact hnex ⟨x, hx, slotKeyMatch_iff.mp hpx⟩
    rw [toggle_slot, hfn]
    simp
  · cases hf : st.slots.find? (slotKeyMatch d date t) with
    | some s =>
      have hps : ∀ x : SlotRec, slotKeyMatch d date t (setSlotFlag b x) = slotKeyMatch d date t x :=
        fun x => rfl
      have h1 : toggle_slot st d date t b =
          { st with slots := updateFirst (slotKeyMatch d date t) (setSlotFlag b) st.slots } := by
        rw [toggle_slot, hf]
      have hf2 : (updateFirst (slotKeyMatch d date t) (setSlotFlag b) st.slots).find?
          (slotKeyMatch d date t) = some (setSlotFlag b s) := by
        rw [find?_updateFirst hps, hf, Option.map_some']
      rw [h1, toggle_slot]
      simp only [hf2]
      rw [updateFirst_updateFirst hps (fun x => rfl)]
    | none =>
      have hnone : ∀ x ∈ st.slots, slotKeyMatch d date t x = false :=
        fun x hx => Bool.eq_false_iff.mpr (List.find?_eq_none.mp hf x hx)
      have hnew : slotKeyMatch d date t
          { doctor_id := d, date := date, time := t, is_available := b } = true := by
        simp [slotKeyMatch]
      have h1 : toggle_slot st d date t b =
          { st with slots := st.slots ++
              [{ doctor_id := d, date := date, time := t, is_available := b }] } := by
        rw [toggle_slot, hf]
      have hf2 : (st.slots ++
            [({ doctor_id := d, date := date, time := t, is_available := b } : SlotRec)]).find?
          (slotKeyMatch d date t) =
          some { doctor_id := d, date := date, time := t, is_available := b } := by
        rw [List.find?_append]
        rw [List.find?_eq_none.mpr (fun x hx => by simp [hnone x hx])]
        simp [hnew]
      rw [h1, toggle_slot]
      simp only [hf2]
      rw [updateFirst_append_of_none _ hnone, updateFirst, if_pos hnew]
      rfl

/-- C7 witness: toggling the existing stBase slot keeps one record and the
openness answers match the flag that was set. -/
theorem C7_toggle_upsert_witness :
    slotKeyUnique (toggle_slot stBase 2 10 "09:00" true) ∧
    (toggle_slot stBase 2 10 "09:00" true).slots.length = stBase.slots.length ∧
    is_open (toggle_slot stBase 2 10 "09:00" true) 2 10 "09:00" = true ∧
    is_open (toggle_slot stBase 2 10 "09:00" false) 2 10 "09:00" = false := by
  have h := C7_toggle_upsert stBase 2 10 "09:00" true (by decide)
  exact ⟨h.1, h.2.1 (by decide), h.2.2.2.2.1, h.2.2.2.2.2.1⟩

/-! ### Claim C9 -/

/-- C9: a successful booking inserts exactly 3 notifications (doctor, patient,
nurse) when a nurse is assigned and exactly 2 (doctor, patient) otherwise,
all with is_read = false. -/
theorem C9_booking_notification_fanout (st : ClinicState) (pid did date : Nat)
    (time : String) (reason : Option String) (nurse : Option Nat)
    (hopen : is_open st did date time = true)
    (hp : (findUser st.users pid).isSome) (hd : (findUser st.users did).isSome) :
    ∃ ns, (create_appointment st pid did date time reason nurse).2.notifs = st.notifs ++ ns ∧
      (∃ a, (create_appointment st pid did date time reason nurse).1 = CreateResult.ok a) ∧
      ns.length = (if nurse.isSome then 3 else 2) ∧
      (∀ n ∈ ns, n.is_read = false) ∧
      ns.map (fun n => n.user_id) =
        [did, pid] ++ (match nurse with | some nid => [nid] | none => []) := by
  rcases Option.isSome_iff_exists.mp hp with ⟨p, hpE⟩
  rcases Option.isSome_iff_exists.mp hd with ⟨d, hdE⟩
  simp only [is_open] at hopen
  unfold create_appointment
  rw [if_pos hopen]
  unfold create_appointment_notifications
  simp only [hpE, hdE]
  cases nurse <;> simp

/-- C9 witness: booking with nurse 3 assigned on the concrete base state
yields 3 unread notifications for doctor 2, patient 1 and nurse 3. -/
theorem C9_booking_notification_fanout_witness :
    ∃ ns, (create_appointment stBase 1 2 10 "09:00" none (some 3)).2.notifs = stBase.notifs ++ ns ∧
      (∃ a, (create_appointment stBase 1 2 10 "09:00" none (some 3)).1 = CreateResult.ok a) ∧
      ns.length = 3 ∧
      (∀ n ∈ ns, n.is_read = false) ∧
      ns.map (fun n => n.user_id) = [2, 1, 3] :=
  C9_booking_notification_fanout stBase 1 2 10 "09:00" none (some 3)
    (by decide) (by decide) (by decide)

/-! ### Claim C10 -/

/-- C10 counterexample: with an open slot but a patient id (7) that matches
no user row, the booking does not return successfully — the notification step
dereferences the missing patient row and the call crashes — yet the
appointment insert and the slot flip were already committed. -/
theorem C10_missing_user_counterexample :
    (create_appointment stNoUsers 7 2 10 "09:00" none none).1 = CreateResult.crashed ∧
    (create_appointment stNoUsers 7 2 10 "09:00" none none).2.appts.length = 1 ∧
    is_open (create_appointment stNoUsers 7 2 10 "09:00" none none).2 2 10 "09:00" = false := by
  decide

/-- C10 amended: create_appointment checks only slot openness — the date may
be past and the roles of the referenced users are never checked — but the
patient and doctor ids must resolve to some user row, because the
notification messages dereference them; whenever an open slot with the key
exists and both ids resolve, the booking returns a scheduled appointment. -/
theorem C10_no_other_precondition (st : ClinicState) (pid did date : Nat)
    (time : String) (reason : Option String) (nurse : Option Nat)
    (hopen : ∃ s ∈ st.slots, slotKey s = (did, date, time) ∧ s.is_available = true)
    (hp : (findUser st.users pid).isSome) (hd : (findUser st.users did).isSome) :
    ∃ a, (create_appointment st pid did date time reason nurse).1 = CreateResult.ok a ∧
      a.status = "scheduled" ∧ a.patient_id = pid ∧ a.doctor_id = did := by
  have hopen2 : is_open st did date time = true := (is_open_iff st did date time).mpr hopen
  rcases Option.isSome_iff_exists.mp hp with ⟨p, hpE⟩
  rcases Option.isSome_iff_exists.mp hd with ⟨d, hdE⟩
  simp only [is_open] at hopen2
  unfold create_appointment
  rw [if_pos hopen2]
  unfold create_appointment_notifications
  simp only [hpE, hdE]
  cases nurse <;> simp

/-- C10 witness: a booking on day 0 where user 1 is a nurse acting as patient
and the slot doctor id resolves to a patient-roled user still succeeds. -/
theorem C10_no_other_precondition_witness :
    ∃ a, (create_appointment stWrongRole 1 2 0 "09:00" none none).1 = CreateResult.ok a ∧
      a.status = "scheduled" ∧ a.patient_id = 1 ∧ a.doctor_id = 2 :=
  C10_no_other_precondition stWrongRole 1 2 0 "09:00" none none
    (by decide) (by decide) (by decide)

/-! ### Claim C2 -/

/-- C2 counterexample: cancelling the scheduled appointment through the
patient route deletes the appointment row, so no record with its id persists
(in particular none with status cancelled); and the models-layer cancel
leaves the slot table untouched, so the closed slot never reopens. -/
theorem C2_cancel_counterexample :
    (cancel_appointment_route stBooked 1 1).1 = RouteResult.success ∧
    (cancel_appointment_route stBooked 1 1).2.appts.find? (fun a => a.id == 1) = none ∧
    (models_cancel_appointment stBooked 1).2.slots = stBooked.slots ∧
    is_open (models_cancel_appointment stBooked 1).2 2 10 "09:00" = false := by
  decide

/-- C2 amended: the patient route reopens the first slot with the appointment
key (when one exists) but deletes the appointment row and sends no
notifications; the models-layer cancel_appointment marks the record cancelled
and keeps it (same number of rows) but never touches the slot table;
cancelling a non-existent id returns failure on both paths and mutates
nothing. -/
theorem C2_cancel_amended (st : ClinicState) (actor i : Nat) :
    (∀ a, st.appts.find? (fun b => b.id == i) = some a → a.patient_id = actor →
      (cancel_appointment_route st actor i).1 = RouteResult.success ∧
      (cancel_appointment_route st actor i).2.appts = st.appts.filter (fun b => !(b.id == i)) ∧
      (cancel_appointment_route st actor i).2.notifs = st.notifs ∧
      ((∃ s ∈ st.slots, slotKey s = apptKey a) →
        ∃ s ∈ (cancel_appointment_route st actor i).2.slots,
          slotKey s = apptKey a ∧ s.is_available = true)) ∧
    (∀ a, st.appts.find? (fun b => b.id == i) = some a →
      (findUser st.users a.patient_id).isSome → (findUser st.users a.doctor_id).isSome →
      (models_cancel_appointment st i).1 = ModelCancelResult.returnedTrue ∧
      (models_cancel_appointment st i).2.appts.find? (fun b => b.id == i) =
        some { a with status := "cancelled" } ∧
      (models_cancel_appointment st i).2.appts.length = st.appts.length ∧
      (models_cancel_appointment st i).2.slots = st.slots) ∧
    (st.appts.find? (fun b => b.id == i) = none →
      models_cancel_appointment st i = (ModelCancelResult.returnedFalse, st) ∧
      cancel_appointment_route st actor i = (RouteResult.notFound, st)) := by
  refine ⟨?_, ?_, ?_⟩
  · intro a hfind hown
    have hbeq : (a.patient_id == actor) = true := by simp [hown]
    rw [cancel_appointment_route, hfind]
    dsimp only
    rw [if_pos hbeq]
    refine ⟨rfl, rfl, rfl, ?_⟩
    intro hex
    exact opened_after_open_key hex
  · intro a hfind hp hd
    rcases Option.isSome_iff_exists.mp hp with ⟨p, hpE⟩
    rcases Option.isSome_iff_exists.mp hd with ⟨d, hdE⟩
    have hidpres : ∀ x : ApptRec,
        ((fun b => b.id == i) ({ x with status := "cancelled" } : ApptRec)) =
          ((fun b => b.id == i) x) := fun x => rfl
    rw [models_cancel_appointment, hfind]
    dsimp only
    unfold cancel_appointment_notifications
    simp only [hpE, hdE]
    refine ⟨trivial, ?_, length_updateFirst _ _ _, trivial⟩
    rw [find?_updateFirst hidpres, hfind, Option.map_some']
  · intro hfind
    rw [models_cancel_appointment, hfind, cancel_appointment_route, hfind]
    exact ⟨rfl, rfl⟩

/-- C2 witness: the amended behavior evaluated on the concrete booked state
(id 1 exists, id 99 does not). -/
theorem C2_cancel_amended_witness :
    (cancel_appointment_route stBooked 1 1).1 = RouteResult.success ∧
    (∃ s ∈ (cancel_appointment_route stBooked 1 1).2.slots,
      slotKey s = apptKey apptBooked ∧ s.is_available = true) ∧
    (models_cancel_appointment stBooked 1).2.slots = stBooked.slots ∧
    models_cancel_appointment stBooked 99 = (ModelCancelResult.returnedFalse, stBooked) := by
  have h := C2_cancel_amended stBooked 1 1
  have h99 := C2_cancel_amended stBooked 1 99
  exact ⟨(h.1 apptBooked (by decide) (by decide)).1,
    (h.1 apptBooked (by decide) (by decide)).2.2.2 (by decide),
    (h.2.1 apptBooked (by decide) (by decide) (by decide)).2.2.2,
    (h99.2.2 (by decide)).1⟩

/-! ### Claim C4 -/

/-- C4: a doctor update that sets status to cancelled does not reopen the
slot (the slot table is untouched, so the key stays closed) and creates no
notification — unlike the patient-initiated cancel, to which it is also not
equal in effect, since that path reopens the slot and deletes the record. -/
theorem C4_doctor_cancel_divergence :
    (doctor_appointment_update stBooked 2 1 "n" "cancelled").1 = RouteResult.success ∧
    ((doctor_appointment_update stBooked 2 1 "n" "cancelled").2.appts.find?
        (fun b => b.id == 1)).map (fun b => b.status) = some "cancelled" ∧
    (doctor_appointment_update stBooked 2 1 "n" "cancelled").2.slots = stBooked.slots ∧
    is_open (doctor_appointment_update stBooked 2 1 "n" "cancelled").2 2 10 "09:00" = false ∧
    (doctor_appointment_update stBooked 2 1 "n" "cancelled").2.notifs = [] ∧
    (cancel_appointment_route stBooked 1 1).2 ≠
      (doctor_appointment_update stBooked 2 1 "n" "cancelled").2 := by
  decide

/-! ### Claim C5 -/

/-- C5: the doctor update route writes the submitted status unconditionally,
so an appointment whose status is already cancelled transitions back to
scheduled — the status leaves the cancelled state. -/
theorem C5_status_transition_unguarded :
    (stCancelled.appts.find? (fun b => b.id == 1)).map (fun b => b.status) =
      some "cancelled" ∧
    ((doctor_appointment_update stCancelled 2 1 "n" "scheduled").2.appts.find?
        (fun b => b.id == 1)).map (fun b => b.status) = some "scheduled" := by
  decide

/-! ### Claim C6 -/

/-- C6 counterexample: patient 3 invokes a reschedule of appointment 1, which
is owned by patient 1; the old appointment is untouched, but the booking step
still runs and creates a second appointment, so the operation does mutate
state even though the actor is not the owner. -/
theorem C6_nonowner_reschedule_counterexample :
    (book_appointment_route stResched 3 (some 1) 2 11 "10:00" none).1 ≠ CreateResult.unavailable ∧
    (book_appointment_route stResched 3 (some 1) 2 11 "10:00" none).1 ≠ CreateResult.crashed ∧
    (book_appointment_route stResched 3 (some 1) 2 11 "10:00" none).2.appts.length = 2 ∧
    apptBooked ∈ (book_appointment_route stResched 3 (some 1) 2 11 "10:00" none).2.appts := by
  decide

/-- C6 amended: a non-owner cancel performs no mutation at all; a non-owner
reschedule leaves the old appointment and its slot unchanged — the whole
operation behaves exactly like a fresh booking on the unchanged state — but
that booking still runs, so a new appointment for the acting patient can be
created. -/
theorem C6_ownership_amended (st : ClinicState) (actor rid did date : Nat)
    (time : String) (reason : Option String) :
    (∀ old, st.appts.find? (fun b => b.id == rid) = some old → old.patient_id ≠ actor →
      cancel_appointment_route st actor rid = (RouteResult.unauthorized, st)) ∧
    (∀ old, st.appts.find? (fun b => b.id == rid) = some old → old.patient_id ≠ actor →
      book_appointment_route st actor (some rid) did date time reason =
        create_appointment st actor did date time reason none) ∧
    (∀ old, st.appts.find? (fun b => b.id == rid) = some old → old.patient_id ≠ actor →
      old ∈ (book_appointment_route st actor (some rid) did date time reason).2.appts) := by
  have hroute : ∀ old, st.appts.find? (fun b => b.id == rid) = some old →
      old.patient_id ≠ actor →
      book_appointment_route st actor (some rid) did date time reason =
        create_appointment st actor did date time reason none := by
    intro old hfind hne
    have hbeq : (old.patient_id == actor) = false := by simp [hne]
    rw [book_appointment_route, hfind]
    dsimp only
    rw [hbeq]
    rfl
  refine ⟨?_, hroute, ?_⟩
  · intro old hfind hne
    have hbeq : (old.patient_id == actor) = false := by simp [hne]
    rw [cancel_appointment_route, hfind]
    dsimp only
    rw [if_neg (by simp [hbeq])]
  · intro old hfind hne
    rw [hroute old hfind hne]
    exact create_appointment_preserves_appts st actor did date time reason none
      (List.mem_of_find?_eq_some hfind)

/-- C6 witness: the amended behavior at the concrete state — actor 3 is not
the owner of appointment 1, the cancel is a pure no-op, the reschedule equals
a fresh booking, and the old appointment survives. -/
theorem C6_ownership_amended_witness :
    cancel_appointment_route stResched 3 1 = (RouteResult.unauthorized, stResched) ∧
    book_appointment_route stResched 3 (some 1) 2 11 "10:00" none =
      create_appointment stResched 3 2 11 "10:00" none none ∧
    apptBooked ∈ (book_appointment_route stResched 3 (some 1) 2 11 "10:00" none).2.appts := by
  have h := C6_ownership_amended stResched 3 1 2 11 "10:00" none
  exact ⟨h.1 apptBooked (by decide) (by decide), h.2.1 apptBooked (by decide) (by decide),
    h.2.2 apptBooked (by decide) (by decide)⟩

/-! ### Claim C3 -/

/-- C3 counterexample: after booking the open slot the coupled-pair invariant
holds, but one doctor slot toggle re-opening that slot produces a reachable
state with a scheduled appointment whose matching slot is open — the toggle
operation does not preserve the invariant. -/
theorem C3_toggle_breaks_invariant :
    scheduledPairedInvariant (create_appointment stBase 1 2 10 "09:00" none none).2 ∧
    strongInv (create_appointment stBase 1 2 10 "09:00" none none).2 ∧
    ¬ scheduledPairedInvariant
        (toggle_slot (create_appointment stBase 1 2 10 "09:00" none none).2 2 10 "09:00" true) := by
  decide

/-- C3 amended: booking, both cancellation paths, the doctor status update
and the reschedule route each preserve the invariant — stated through the
inductive strengthening strongInv (unique slot keys, pairwise distinct
appointment keys, every appointment row paired with a closed slot), which
entails the spec invariant for scheduled appointments — but the doctor slot
toggle is not on this list: it can reopen the slot of a scheduled
appointment, as the counterexample shows. -/
theorem C3_invariant_preserved_except_toggle :
    (∀ (st : ClinicState) (pid did date : Nat) (time : String)
        (reason : Option String) (nurse : Option Nat), strongInv st →
      strongInv (create_appointment st pid did date time reason nurse).2) ∧
    (∀ (st : ClinicState) (i : Nat), strongInv st →
      strongInv (models_cancel_appointment st i).2) ∧
    (∀ (st : ClinicState) (actor i : Nat) (notes status : String), strongInv st →
      strongInv (doctor_appointment_update st actor i notes status).2) ∧
    (∀ (st : ClinicState) (actor i : Nat), strongInv st →
      strongInv (cancel_appointment_route st actor i).2) ∧
    (∀ (st : ClinicState) (actor : Nat) (reschedule_id : Option Nat) (did date : Nat)
        (time : String) (reason : Option String), strongInv st →
      strongInv (book_appointment_route st actor reschedule_id did date time reason).2) ∧
    (∀ st : ClinicState, strongInv st → scheduledPairedInvariant st) :=
  ⟨fun st pid did date time reason nurse h => strongInv_create st pid did date time reason nurse h,
   fun st i h => strongInv_models_cancel st i h,
   fun st actor i notes status h => strongInv_doctor_update st actor i notes status h,
   fun st actor i h => strongInv_cancel_route st actor i h,
   fun st actor rid did date time reason h => strongInv_book_route st actor rid did date time reason h,
   fun st h => strongInv_implies_paired st h⟩

/-- C3 witness: each preserved operation applied at a concrete invariant
state, and the implication instantiated on the booked state. -/
theorem C3_invariant_preserved_except_toggle_witness :
    strongInv (create_appointment stBase 1 2 10 "09:00" none none).2 ∧
    strongInv (models_cancel_appointment stBooked 1).2 ∧
    strongInv (doctor_appointment_update stBooked 2 1 "n" "completed").2 ∧
    strongInv (cancel_appointment_route stBooked 1 1).2 ∧
    strongInv (book_appointment_route stResched 1 (some 1) 2 11 "10:00" none).2 ∧
    scheduledPairedInvariant stBooked := by
  have h := C3_invariant_preserved_except_toggle
  exact ⟨h.1 stBase 1 2 10 "09:00" none none (by decide),
    h.2.1 stBooked 1 (by decide),
    h.2.2.1 stBooked 2 1 "n" "completed" (by decide),
    h.2.2.2.1 stBooked 1 1 (by decide),
    h.2.2.2.2.1 stResched 1 (some 1) 2 11 "10:00" none (by decide),
    h.2.2.2.2.2 stBooked (by decide)⟩
